import Mathlib

/-!
Shallow embedding of `merkleredis.go` from go-merkletree-redis-store.

Bytes are modelled as `Nat` (the Go code only ever stores values < 256 in
them; reads that matter apply `% 256`, mirroring the byte type), byte
slices as `List Nat`, and nilable Go slices as `Option (List Nat)` so that
the code's `!= nil` branches are visible.  The external redis client is an
association list from storage-layer keys to stored string values (both as
character-code lists), with an `Option GoError` parameter on each call that
models the error the client reports for that call (`none` = success).
The external `merkletree.Hash` type is a fixed 32-byte array; `copy` into a
fresh zero hash is `hashOfBytes`.
-/

deriving instance DecidableEq for Except

namespace MerkleRedis

/-- Errors, as Go `error` values: `redisNil` is the redis client's `redis.Nil`
sentinel, `errNotFound` is `merkletree.ErrNotFound`, `errNodeBytesBadSize` is
`merkletree.ErrNodeBytesBadSize`, `errStr` is a `fmt.Errorf` message, and
`storageError` is the wrapping type built by `newErr` (merkleredis.go lines
247-262). -/
inductive GoError where
  | redisNil : GoError
  | errNotFound : GoError
  | errNodeBytesBadSize : GoError
  | errStr : String → GoError
  | storageError : GoError → String → GoError
deriving DecidableEq

/-- Wrap an error with a context message (merkleredis.go line 260). -/
def newErr (err : GoError) (msg : String) : GoError :=
  GoError.storageError err msg

/-- Whether an error is a `storageError` wrapper produced by `newErr`. -/
def GoError.isWrapped : GoError → Bool
  | GoError.storageError _ _ => true
  | _ => false

/-- ElemBytesLen of the external go-merkletree-sql library: hashes and entry
elements are 32 bytes. -/
def ElemBytesLen : Nat := 32

/-- NodeItem (merkleredis.go lines 48-58).  Go slices are nilable, hence
`Option`; the Go zero value has `Type = 0` and all slices nil. -/
structure NodeItem where
  type : Nat := 0
  Key : Option (List Nat) := none
  ChildL : Option (List Nat) := none
  ChildR : Option (List Nat) := none
  Entry : Option (List Nat) := none
deriving DecidableEq

/-- A `merkletree.Node` of the external tree library: a type tag
(0 = Middle, 1 = Leaf, 2 = Empty), two nilable child hash pointers, and a
pair of nilable entry hash pointers. -/
structure MTNode where
  type : Nat := 0
  ChildL : Option (List Nat) := none
  ChildR : Option (List Nat) := none
  Entry : Option (List Nat) × Option (List Nat) := (none, none)
deriving DecidableEq

/-- NodeType tag of a middle node in go-merkletree-sql. -/
def NodeTypeMiddle : Nat := 0

/-- NodeType tag of a leaf node in go-merkletree-sql. -/
def NodeTypeLeaf : Nat := 1

/-- Bytes of a nilable slice: a nil slice has no bytes. -/
def segBytes : Option (List Nat) → List Nat
  | none => []
  | some b => b

/-- The result of Go `copy(h[:], d)` into a fresh zero `merkletree.Hash`
(32 zero bytes): the first `min 32 d.length` bytes come from `d`, the rest
stay zero. -/
def hashOfBytes (d : List Nat) : List Nat :=
  d.take 32 ++ List.replicate (32 - d.length) 0

/-- readUint32LE (merkleredis.go lines 22-25): little-endian 32-bit read.
The Go version ORs four disjoint shifted bytes, which on byte values equals
this sum; `% 256` models that the Go buffer cells are bytes. -/
def readUint32LE (d : List Nat) (index : Nat) : Nat :=
  d.getD index 0 % 256 + 256 * (d.getD (index + 1) 0 % 256) +
    65536 * (d.getD (index + 2) 0 % 256) + 16777216 * (d.getD (index + 3) 0 % 256)

/-- The four bytes that writeUint32LE (merkleredis.go lines 26-31) stores for
`uint32(value)`: the uint32 cast truncates to `value % 2^32` and the four
bytes are its little-endian base-256 digits. -/
def writeUint32LE (value : Nat) : List Nat :=
  [value % 4294967296 % 256, value % 4294967296 / 256 % 256,
   value % 4294967296 / 65536 % 256, value % 4294967296 / 16777216 % 256]

/-- bytesToNodeItem (merkleredis.go lines 65-92): reject a buffer shorter
than the 17-byte header; reject when the four declared segment lengths plus
17 exceed the buffer length; otherwise slice the four segments out in order.
The resulting sub-slices of a Go slice are never nil, hence `some`. -/
def bytesToNodeItem (d : List Nat) : Except GoError NodeItem :=
  if d.length < 17 then
    Except.error (GoError.errStr "corrupted merkle node: invalid header")
  else if readUint32LE d 1 + readUint32LE d 5 + readUint32LE d 9 + readUint32LE d 13 + 17 >
      d.length then
    Except.error (GoError.errStr "corrupted merkle node: overflow")
  else
    Except.ok
      { type := d.getD 0 0 % 256
      , Key := some ((d.drop 17).take (readUint32LE d 1))
      , ChildL := some ((d.drop (17 + readUint32LE d 1)).take (readUint32LE d 5))
      , ChildR := some ((d.drop (17 + readUint32LE d 1 + readUint32LE d 5)).take (readUint32LE d 9))
      , Entry := some ((d.drop (17 + readUint32LE d 1 + readUint32LE d 5 +
          readUint32LE d 9)).take (readUint32LE d 13)) }

/-- The bytes that land in the entry segment of the encoded buffer
(merkleredis.go lines 118-123): when `n.Entry` is non-nil the code runs
`copy(d[pos:], n.ChildR)` — it copies from the RIGHT-CHILD field, not from
`n.Entry` — into the remaining `len(n.Entry)` bytes of the zero-initialised
buffer, so the segment is `ChildR` truncated to `len(n.Entry)` and padded
with zeros.  When `n.Entry` is nil the segment is empty. -/
def entrySegBytes (n : NodeItem) : List Nat :=
  match n.Entry with
  | none => []
  | some e =>
    (segBytes n.ChildR).take e.length ++
      List.replicate (e.length - (segBytes n.ChildR).length) 0

/-- nodeItemToBytes (merkleredis.go lines 93-125): a buffer of size
`17 + |Key| + |ChildL| + |ChildR| + |Entry|`, with the type byte at offset 0,
the four uint32LE segment lengths at offsets 1, 5, 9, 13 (a nil field writes
length 0, which equals the length of its empty byte sequence), and the
segments copied in order at offset 17.  The entry segment is `entrySegBytes`
(the §9 defect: it is copied from `ChildR`). -/
def nodeItemToBytes (n : NodeItem) : List Nat :=
  n.type % 256 ::
    (writeUint32LE (segBytes n.Key).length ++ writeUint32LE (segBytes n.ChildL).length ++
      writeUint32LE (segBytes n.ChildR).length ++ writeUint32LE (segBytes n.Entry).length) ++
    ((segBytes n.Key) ++ ((segBytes n.ChildL) ++ ((segBytes n.ChildR) ++ entrySegBytes n)))

/-- Child pointer produced by the `if item.ChildL != nil` / `ChildR` blocks of
NodeItem.Node (merkleredis.go lines 221-228): a nil slice stays a nil pointer,
a non-nil slice (even an empty one) is copied into a fresh zero hash. -/
def childHash : Option (List Nat) → Option (List Nat)
  | none => none
  | some l => some (hashOfBytes l)

/-- NodeItem.Node (merkleredis.go lines 217-238): rebuild a `merkletree.Node`
from decoded fields.  Non-nil children are copied into fresh zero hashes; a
non-empty entry must be exactly `2 * ElemBytesLen` bytes or the function
fails with `merkletree.ErrNodeBytesBadSize`, and is split into two hashes. -/
def NodeItem.Node (item : NodeItem) : Except GoError MTNode :=
  match item.Entry with
  | none =>
    Except.ok
      { type := item.type, ChildL := childHash item.ChildL, ChildR := childHash item.ChildR
      , Entry := (none, none) }
  | some es =>
    if 0 < es.length then
      if es.length ≠ 2 * ElemBytesLen then
        Except.error GoError.errNodeBytesBadSize
      else
        Except.ok
          { type := item.type, ChildL := childHash item.ChildL, ChildR := childHash item.ChildR
          , Entry := (some (hashOfBytes (es.take 32)), some (hashOfBytes ((es.drop 32).take 32))) }
    else
      Except.ok
        { type := item.type, ChildL := childHash item.ChildL, ChildR := childHash item.ChildR
        , Entry := (none, none) }

/-- Lower-case hex digit of a value below 16 (Go encoding/hex table). -/
def hexDigitChar (v : Nat) : Nat :=
  if v < 10 then 48 + v else 87 + v

/-- Go `hex.EncodeToString`: two lower-case hex characters per byte. -/
def hexEncode : List Nat → List Nat
  | [] => []
  | b :: rest => hexDigitChar (b % 256 / 16) :: hexDigitChar (b % 16) :: hexEncode rest

/-- Value of one hex character, accepting `0-9`, `a-f`, `A-F`. -/
def hexCharVal (c : Nat) : Option Nat :=
  if 48 ≤ c ∧ c ≤ 57 then some (c - 48)
  else if 97 ≤ c ∧ c ≤ 102 then some (c - 87)
  else if 65 ≤ c ∧ c ≤ 70 then some (c - 55)
  else none

/-- Go `hex.DecodeString`: fails on odd length or an invalid character. -/
def hexDecode : List Nat → Option (List Nat)
  | [] => some []
  | [_] => none
  | c1 :: c2 :: rest =>
    match hexCharVal c1, hexCharVal c2, hexDecode rest with
    | some hi, some lo, some bs => some ((16 * hi + lo) :: bs)
    | _, _, _ => none

/-- Character codes of a string constant. -/
def strBytes (s : String) : List Nat :=
  s.toList.map Char.toNat

/-- The external redis client's state: stored key/value pairs (most recent
write first, as `storeLookup` takes the first match). -/
structure Redis where
  data : List (List Nat × List Nat)
deriving DecidableEq

/-- Value stored under a key, if any. -/
def storeLookup (db : Redis) (k : List Nat) : Option (List Nat) :=
  (db.data.find? (fun p => decide (p.1 = k))).map (fun p => p.2)

/-- One redis GET round trip.  `ioErr` is the error the client reports for
this call (`none` when the call itself succeeds); a missing key surfaces as
the `redis.Nil` error, exactly how the Go client signals absence. -/
def redisGet (db : Redis) (k : List Nat) (ioErr : Option GoError) : Except GoError (List Nat) :=
  match ioErr with
  | some e => Except.error e
  | none =>
    match storeLookup db k with
    | some v => Except.ok v
    | none => Except.error GoError.redisNil

/-- One redis SET round trip (ttl 0): on success the key now maps to the
value; on failure the client reports `ioErr` and the write is not observed. -/
def redisSet (db : Redis) (k v : List Nat) (ioErr : Option GoError) : Except GoError Redis :=
  match ioErr with
  | some e => Except.error e
  | none => Except.ok ⟨(k, v) :: db.data⟩

/-- Storage (merkleredis.go lines 40-46); `nodeIdPref` is the field the
source calls the node-id namespacing string, `currentRoot` the nilable
cached root. -/
structure Storage where
  nodeIdPref : List Nat
  rootId : List Nat
  currentRoot : Option (List Nat) := none
deriving DecidableEq

/-- NewMerkleRedisStorage (merkleredis.go lines 32-38). -/
def NewMerkleRedisStorage (pref : List Nat) : Storage :=
  { nodeIdPref := strBytes "mt_n_" ++ pref ++ strBytes "_"
  , rootId := strBytes "mt_r_" ++ pref
  , currentRoot := none }

/-- getRedisNodeIdForMerkleKey (merkleredis.go lines 126-128). -/
def Storage.getRedisNodeIdForMerkleKey (s : Storage) (key : List Nat) : List Nat :=
  s.nodeIdPref ++ hexEncode key

/-- Get (merkleredis.go lines 131-155): read the storage-layer key, map
`redis.Nil` to `merkletree.ErrNotFound`, propagate other store errors,
hex-decode (failing with "corrupt key hex"), decode the node item, and
rebuild the node. -/
def Storage.Get (s : Storage) (db : Redis) (key : List Nat) (ioErr : Option GoError) :
    Except GoError MTNode :=
  match redisGet db (s.getRedisNodeIdForMerkleKey key) ioErr with
  | Except.error e =>
    if e = GoError.redisNil then Except.error GoError.errNotFound else Except.error e
  | Except.ok v =>
    match hexDecode v with
    | none => Except.error (GoError.errStr "corrupt key hex")
    | some d =>
      match bytesToNodeItem d with
      | Except.error e => Except.error e
      | Except.ok item => item.Node

/-- The NodeItem that Put builds (merkleredis.go lines 160-172): `Key` is set,
`Type` is NEVER assigned and stays at its zero value 0, children are appended
(to nil) from the node's non-nil child hashes, and `Entry` is the
concatenation of the two entry hashes when both are non-nil. -/
def putNodeItem (key : List Nat) (node : MTNode) : NodeItem :=
  { type := 0
  , Key := some key
  , ChildL := node.ChildL
  , ChildR := node.ChildR
  , Entry :=
      match node.Entry with
      | (some e0, some e1) => some (e0 ++ e1)
      | _ => none }

/-- Put (merkleredis.go lines 157-176): build the item, encode it, hex-encode
the encoding, SET it under the derived storage-layer key, and return the
store's error (raw, not wrapped). -/
def Storage.Put (s : Storage) (db : Redis) (key : List Nat) (node : MTNode)
    (ioErr : Option GoError) : Redis × Option GoError :=
  match redisSet db (s.getRedisNodeIdForMerkleKey key)
      (hexEncode (nodeItemToBytes (putNodeItem key node))) ioErr with
  | Except.error e => (db, some e)
  | Except.ok db' => (db', none)

/-- GetRoot (merkleredis.go lines 179-203): a non-nil cached root is returned
as a copy with no store access; otherwise the fixed root key is read, with
`redis.Nil` mapped to `merkletree.ErrNotFound`, invalid hex failing with
"corrupt root hex", and a success copied into the cache and returned. -/
def Storage.GetRoot (s : Storage) (db : Redis) (ioErr : Option GoError) :
    Storage × Except GoError (List Nat) :=
  match s.currentRoot with
  | some r => (s, Except.ok (hashOfBytes r))
  | none =>
    match redisGet db s.rootId ioErr with
    | Except.error e =>
      (s, if e = GoError.redisNil then Except.error GoError.errNotFound else Except.error e)
    | Except.ok v =>
      match hexDecode v with
      | none => (s, Except.error (GoError.errStr "corrupt root hex"))
      | some d =>
        ({ s with currentRoot := some (hashOfBytes d) }, Except.ok (hashOfBytes d))

/-- SetRoot (merkleredis.go lines 205-215): copy the hash into the cache
FIRST, then SET the hex-encoded hash under the root key; a store failure is
wrapped by `newErr` with "failed to update current root hash". -/
def Storage.SetRoot (s : Storage) (db : Redis) (hash : List Nat) (ioErr : Option GoError) :
    Storage × Redis × Option GoError :=
  let s' := { s with currentRoot := some (hashOfBytes hash) }
  match redisSet db s.rootId (hexEncode hash) ioErr with
  | Except.error e => (s', db, some (newErr e "failed to update current root hash"))
  | Except.ok db' => (s', db', none)

/-! ## Basic helper lemmas -/

/-- getD of an append, index inside the left list. -/
lemma getD_append_lt (l₁ l₂ : List Nat) (i : Nat) (h : i < l₁.length) :
    (l₁ ++ l₂).getD i 0 = l₁.getD i 0 := by
  simp [List.getD, List.getElem?_append_left h]

/-- getD of an append, index past the left list. -/
lemma getD_append_ge (l₁ l₂ : List Nat) (i : Nat) (h : l₁.length ≤ i) :
    (l₁ ++ l₂).getD i 0 = l₂.getD (i - l₁.length) 0 := by
  simp [List.getD, List.getElem?_append_right h]

/-- A hash copy of a 32-byte value is the value itself. -/
lemma hashOfBytes_of_length_eq (h : List Nat) (hl : h.length = 32) : hashOfBytes h = h := by
  simp [hashOfBytes, hl, List.take_of_length_le (le_of_eq hl)]

/-- A hash copy of the empty byte sequence is the all-zero hash. -/
lemma hashOfBytes_nil : hashOfBytes [] = List.replicate 32 0 := by
  simp [hashOfBytes]

/-- The four bytes written by writeUint32LE recompose, little-endian, to the
truncated value. -/
lemma readUint32LE_writeUint32LE (p q : List Nat) (v i : Nat) (h : p.length = i) :
    readUint32LE (p ++ (writeUint32LE v ++ q)) i = v % 4294967296 := by
  subst h
  unfold readUint32LE
  rw [getD_append_ge _ _ _ (Nat.le_refl _),
    getD_append_ge _ _ _ (Nat.le_add_right _ 1),
    getD_append_ge _ _ _ (Nat.le_add_right _ 2),
    getD_append_ge _ _ _ (Nat.le_add_right _ 3)]
  simp only [Nat.add_sub_cancel_left, Nat.sub_self]
  rw [getD_append_lt _ _ _ (by simp [writeUint32LE]),
    getD_append_lt _ _ _ (by simp [writeUint32LE]),
    getD_append_lt _ _ _ (by simp [writeUint32LE]),
    getD_append_lt _ _ _ (by simp [writeUint32LE])]
  simp [writeUint32LE, List.getD]
  omega

/-- The entry segment always has exactly the length declared for it: the
length of the `Entry` field. -/
lemma entrySegBytes_length (n : NodeItem) :
    (entrySegBytes n).length = (segBytes n.Entry).length := by
  cases hE : n.Entry with
  | none => simp [entrySegBytes, segBytes, hE]
  | some e =>
    simp only [entrySegBytes, segBytes, hE, List.length_append, List.length_take,
      List.length_replicate]
    omega

/-- Size of the encoded buffer (merkleredis.go line 94). -/
lemma nodeItemToBytes_length (n : NodeItem) :
    (nodeItemToBytes n).length = 17 + (segBytes n.Key).length + (segBytes n.ChildL).length +
      (segBytes n.ChildR).length + (segBytes n.Entry).length := by
  simp only [nodeItemToBytes, List.length_cons, List.length_append, writeUint32LE,
    List.length_cons, List.length_nil, entrySegBytes_length]
  omega

/-- The declared key-segment length at header offset 1. -/
lemma read_enc_key (n : NodeItem) :
    readUint32LE (nodeItemToBytes n) 1 = (segBytes n.Key).length % 4294967296 := by
  have hshape : nodeItemToBytes n =
      [n.type % 256] ++ (writeUint32LE (segBytes n.Key).length ++
        (writeUint32LE (segBytes n.ChildL).length ++ (writeUint32LE (segBytes n.ChildR).length ++
          (writeUint32LE (segBytes n.Entry).length ++
            (segBytes n.Key ++ (segBytes n.ChildL ++
              (segBytes n.ChildR ++ entrySegBytes n))))))) := by
    simp [nodeItemToBytes, List.append_assoc]
  rw [hshape]
  exact readUint32LE_writeUint32LE _ _ _ _ (by simp)

/-- The declared left-child-segment length at header offset 5. -/
lemma read_enc_childL (n : NodeItem) :
    readUint32LE (nodeItemToBytes n) 5 = (segBytes n.ChildL).length % 4294967296 := by
  have hshape : nodeItemToBytes n =
      (n.type % 256 :: writeUint32LE (segBytes n.Key).length) ++
        (writeUint32LE (segBytes n.ChildL).length ++ (writeUint32LE (segBytes n.ChildR).length ++
          (writeUint32LE (segBytes n.Entry).length ++
            (segBytes n.Key ++ (segBytes n.ChildL ++
              (segBytes n.ChildR ++ entrySegBytes n)))))) := by
    simp [nodeItemToBytes, List.append_assoc]
  rw [hshape]
  exact readUint32LE_writeUint32LE _ _ _ _ (by simp [writeUint32LE])

/-- The declared right-child-segment length at header offset 9. -/
lemma read_enc_childR (n : NodeItem) :
    readUint32LE (nodeItemToBytes n) 9 = (segBytes n.ChildR).length % 4294967296 := by
  have hshape : nodeItemToBytes n =
      (n.type % 256 :: (writeUint32LE (segBytes n.Key).length ++
          writeUint32LE (segBytes n.ChildL).length)) ++
        (writeUint32LE (segBytes n.ChildR).length ++
          (writeUint32LE (segBytes n.Entry).length ++
            (segBytes n.Key ++ (segBytes n.ChildL ++
              (segBytes n.ChildR ++ entrySegBytes n))))) := by
    simp [nodeItemToBytes, List.append_assoc]
  rw [hshape]
  exact readUint32LE_writeUint32LE _ _ _ _ (by simp [writeUint32LE])

/-- The declared entry-segment length at header offset 13. -/
lemma read_enc_entry (n : NodeItem) :
    readUint32LE (nodeItemToBytes n) 13 = (segBytes n.Entry).length % 4294967296 := by
  have hshape : nodeItemToBytes n =
      (n.type % 256 :: (writeUint32LE (segBytes n.Key).length ++
          (writeUint32LE (segBytes n.ChildL).length ++
            writeUint32LE (segBytes n.ChildR).length))) ++
        (writeUint32LE (segBytes n.Entry).length ++
          (segBytes n.Key ++ (segBytes n.ChildL ++
            (segBytes n.ChildR ++ entrySegBytes n)))) := by
    simp [nodeItemToBytes, List.append_assoc]
  rw [hshape]
  exact readUint32LE_writeUint32LE _ _ _ _ (by simp [writeUint32LE])

/-- Dropping the 17-byte header of an encoded buffer leaves the four
segments. -/
lemma enc_drop_17 (n : NodeItem) :
    (nodeItemToBytes n).drop 17 =
      segBytes n.Key ++ (segBytes n.ChildL ++ (segBytes n.ChildR ++ entrySegBytes n)) := by
  have hshape : nodeItemToBytes n =
      (n.type % 256 :: (writeUint32LE (segBytes n.Key).length ++
          writeUint32LE (segBytes n.ChildL).length ++ writeUint32LE (segBytes n.ChildR).length ++
          writeUint32LE (segBytes n.Entry).length)) ++
        (segBytes n.Key ++ (segBytes n.ChildL ++ (segBytes n.ChildR ++ entrySegBytes n))) := by
    simp [nodeItemToBytes]
  rw [hshape, List.drop_left' (by simp [writeUint32LE])]

/-- Decoding an encoded buffer succeeds and returns exactly the bytes the
encoder wrote into each segment (for the entry segment these are
`entrySegBytes`, not the `Entry` field). -/
lemma decode_encode (n : NodeItem)
    (hk : (segBytes n.Key).length < 4294967296)
    (hl : (segBytes n.ChildL).length < 4294967296)
    (hr : (segBytes n.ChildR).length < 4294967296)
    (he : (segBytes n.Entry).length < 4294967296) :
    bytesToNodeItem (nodeItemToBytes n) = Except.ok
      { type := n.type % 256
      , Key := some (segBytes n.Key)
      , ChildL := some (segBytes n.ChildL)
      , ChildR := some (segBytes n.ChildR)
      , Entry := some (entrySegBytes n) } := by
  have h1 := read_enc_key n
  have h2 := read_enc_childL n
  have h3 := read_enc_childR n
  have h4 := read_enc_entry n
  rw [Nat.mod_eq_of_lt hk] at h1
  rw [Nat.mod_eq_of_lt hl] at h2
  rw [Nat.mod_eq_of_lt hr] at h3
  rw [Nat.mod_eq_of_lt he] at h4
  have hlen := nodeItemToBytes_length n
  have hdrop := enc_drop_17 n
  unfold bytesToNodeItem
  have dA : (nodeItemToBytes n).drop (17 + (segBytes n.Key).length) =
      segBytes n.ChildL ++ (segBytes n.ChildR ++ entrySegBytes n) := by
    rw [← List.drop_drop, hdrop, List.drop_left]
  have dB : (nodeItemToBytes n).drop (17 + (segBytes n.Key).length +
      (segBytes n.ChildL).length) = segBytes n.ChildR ++ entrySegBytes n := by
    rw [← List.drop_drop, dA, List.drop_left]
  have dC : (nodeItemToBytes n).drop (17 + (segBytes n.Key).length +
      (segBytes n.ChildL).length + (segBytes n.ChildR).length) = entrySegBytes n := by
    rw [← List.drop_drop, dB, List.drop_left]
  rw [if_neg (by omega), if_neg (by rw [h1, h2, h3, h4]; omega)]
  simp only [Except.ok.injEq, NodeItem.mk.injEq, Option.some.injEq]
  refine ⟨?_, ?_, ?_, ?_, ?_⟩
  · have : (nodeItemToBytes n).getD 0 0 = n.type % 256 := by
      simp [nodeItemToBytes]
    rw [this]
    omega
  · rw [h1, hdrop, List.take_left]
  · rw [h2, h1, dA, List.take_left]
  · rw [h3, h2, h1, dB, List.take_left]
  · rw [h4, h3, h2, h1, dC]
    exact List.take_of_length_le (le_of_eq (entrySegBytes_length n))

/-! ## Hex and store lemmas -/

/-- Decoding a hex digit character recovers its value. -/
lemma hexCharVal_hexDigitChar (v : Nat) (h : v < 16) :
    hexCharVal (hexDigitChar v) = some v := by
  unfold hexDigitChar hexCharVal
  split_ifs with h1 h2 h3 h4 <;> simp_all <;> omega

/-- Hex decoding inverts hex encoding on byte sequences. -/
lemma hexDecode_hexEncode (bs : List Nat) (h : ∀ x ∈ bs, x < 256) :
    hexDecode (hexEncode bs) = some bs := by
  induction bs with
  | nil => rfl
  | cons b rest ih =>
    have hb : b < 256 := h b (List.mem_cons_self b rest)
    have hrest := ih (fun x hx => h x (List.mem_cons_of_mem _ hx))
    simp only [hexEncode, hexDecode]
    rw [hexCharVal_hexDigitChar _ (by omega), hexCharVal_hexDigitChar _ (by omega), hrest]
    simp only [Option.some.injEq, List.cons.injEq, and_true]
    omega

/-- The most recent SET is what a lookup of the same key finds. -/
lemma storeLookup_head (data : List (List Nat × List Nat)) (k v : List Nat) :
    storeLookup ⟨(k, v) :: data⟩ k = some v := by
  simp [storeLookup, List.find?]

/-- Bytes written by writeUint32LE are below 256. -/
lemma writeUint32LE_bytes_lt (v : Nat) : ∀ x ∈ writeUint32LE v, x < 256 := by
  intro x hx
  simp only [writeUint32LE, List.mem_cons, List.not_mem_nil, or_false] at hx
  rcases hx with h | h | h | h <;> omega

/-- Bytes of the entry segment are below 256 when the right-child bytes
are: the segment is a truncated copy of `ChildR` padded with zeros. -/
lemma entrySegBytes_bytes_lt (n : NodeItem) (hr : ∀ x ∈ segBytes n.ChildR, x < 256) :
    ∀ x ∈ entrySegBytes n, x < 256 := by
  intro x hx
  unfold entrySegBytes at hx
  rcases hE : n.Entry with _ | e <;> rw [hE] at hx
  · simp at hx
  · simp only [List.mem_append] at hx
    rcases hx with h | h
    · exact hr x (List.mem_of_mem_take h)
    · rw [List.eq_of_mem_replicate h]
      omega

/-- Every byte of an encoded node buffer is below 256, provided the field
bytes are. -/
lemma nodeItemToBytes_bytes_lt (n : NodeItem)
    (hk : ∀ x ∈ segBytes n.Key, x < 256)
    (hl : ∀ x ∈ segBytes n.ChildL, x < 256)
    (hr : ∀ x ∈ segBytes n.ChildR, x < 256) :
    ∀ x ∈ nodeItemToBytes n, x < 256 := by
  simp only [nodeItemToBytes, List.forall_mem_cons, List.forall_mem_append]
  exact ⟨⟨by omega, ⟨⟨writeUint32LE_bytes_lt _, writeUint32LE_bytes_lt _⟩,
    writeUint32LE_bytes_lt _⟩, writeUint32LE_bytes_lt _⟩, hk, hl, hr,
    entrySegBytes_bytes_lt n hr⟩

/-- Dropping the header and the first three segments leaves the entry
segment. -/
lemma enc_drop_entrySeg (n : NodeItem) :
    (nodeItemToBytes n).drop (17 + (segBytes n.Key).length + (segBytes n.ChildL).length +
      (segBytes n.ChildR).length) = entrySegBytes n := by
  have hdrop := enc_drop_17 n
  have dA : (nodeItemToBytes n).drop (17 + (segBytes n.Key).length) =
      segBytes n.ChildL ++ (segBytes n.ChildR ++ entrySegBytes n) := by
    rw [← List.drop_drop, hdrop, List.drop_left]
  have dB : (nodeItemToBytes n).drop (17 + (segBytes n.Key).length +
      (segBytes n.ChildL).length) = segBytes n.ChildR ++ entrySegBytes n := by
    rw [← List.drop_drop, dA, List.drop_left]
  rw [← List.drop_drop, dB, List.drop_left]

/-! ## Claim theorems -/

/-- Claim C2: for every NodeItem (field lengths within the uint32 header
range), decoding the encoding succeeds, and the decoded item's Key, ChildL
and ChildR bytes equal the original fields' bytes; the entry field is exempt
(known §9 defect). -/
theorem claim_encode_decode_key_children (n : NodeItem)
    (hk : (segBytes n.Key).length < 4294967296)
    (hl : (segBytes n.ChildL).length < 4294967296)
    (hr : (segBytes n.ChildR).length < 4294967296)
    (he : (segBytes n.Entry).length < 4294967296) :
    ∃ ni : NodeItem, bytesToNodeItem (nodeItemToBytes n) = Except.ok ni ∧
      segBytes ni.Key = segBytes n.Key ∧
      segBytes ni.ChildL = segBytes n.ChildL ∧
      segBytes ni.ChildR = segBytes n.ChildR :=
  ⟨_, decode_encode n hk hl hr he, rfl, rfl, rfl⟩

/-- Witness for C2 at a concrete NodeItem. -/
theorem claim_encode_decode_key_children_witness :
    ((segBytes (NodeItem.mk 7 (some [1, 2]) (some [3]) none (some [5, 6, 7])).Key).length <
        4294967296 ∧
      (segBytes (NodeItem.mk 7 (some [1, 2]) (some [3]) none (some [5, 6, 7])).ChildL).length <
        4294967296 ∧
      (segBytes (NodeItem.mk 7 (some [1, 2]) (some [3]) none (some [5, 6, 7])).ChildR).length <
        4294967296 ∧
      (segBytes (NodeItem.mk 7 (some [1, 2]) (some [3]) none (some [5, 6, 7])).Entry).length <
        4294967296) ∧
    ∃ ni : NodeItem,
      bytesToNodeItem (nodeItemToBytes (NodeItem.mk 7 (some [1, 2]) (some [3]) none
        (some [5, 6, 7]))) = Except.ok ni ∧
      segBytes ni.Key = segBytes (NodeItem.mk 7 (some [1, 2]) (some [3]) none
        (some [5, 6, 7])).Key ∧
      segBytes ni.ChildL = segBytes (NodeItem.mk 7 (some [1, 2]) (some [3]) none
        (some [5, 6, 7])).ChildL ∧
      segBytes ni.ChildR = segBytes (NodeItem.mk 7 (some [1, 2]) (some [3]) none
        (some [5, 6, 7])).ChildR :=
  ⟨⟨by decide, by decide, by decide, by decide⟩,
    claim_encode_decode_key_children _ (by decide) (by decide) (by decide) (by decide)⟩

/-- Claim C3: for a NodeItem with non-nil Entry, the header declares the
entry segment length as the Entry field's length, but the segment itself
holds the ChildR bytes (truncated to that length, zero-padded); hence a leaf
stored via Put, whose children are nil, gets an all-zero entry segment
regardless of the entry values supplied. -/
theorem claim_entry_segment_copies_childR (n : NodeItem) (e : List Nat)
    (hE : n.Entry = some e) (he : e.length < 4294967296) :
    readUint32LE (nodeItemToBytes n) 13 = e.length ∧
    (nodeItemToBytes n).drop (17 + (segBytes n.Key).length + (segBytes n.ChildL).length +
        (segBytes n.ChildR).length) =
      (segBytes n.ChildR).take e.length ++
        List.replicate (e.length - (segBytes n.ChildR).length) 0 ∧
    (∀ (key : List Nat) (node : MTNode) (e0 e1 : List Nat),
      node.ChildL = none → node.ChildR = none → node.Entry = (some e0, some e1) →
      (nodeItemToBytes (putNodeItem key node)).drop (17 + key.length) =
        List.replicate (e0.length + e1.length) 0) := by
  refine ⟨?_, ?_, ?_⟩
  · have h := read_enc_entry n
    rw [hE] at h
    simp only [segBytes] at h
    rw [Nat.mod_eq_of_lt he] at h
    exact h
  · rw [enc_drop_entrySeg n]
    simp [entrySegBytes, hE]
  · intro key node e0 e1 hCL hCR hEn
    have hitem : putNodeItem key node =
        NodeItem.mk 0 (some key) none none (some (e0 ++ e1)) := by
      simp [putNodeItem, hCL, hCR, hEn]
    rw [hitem]
    have h := enc_drop_17 (NodeItem.mk 0 (some key) none none (some (e0 ++ e1)))
    have hdropA : (nodeItemToBytes (NodeItem.mk 0 (some key) none none
        (some (e0 ++ e1)))).drop (17 + key.length) =
        List.replicate (e0 ++ e1).length 0 := by
      have h2 := enc_drop_entrySeg (NodeItem.mk 0 (some key) none none (some (e0 ++ e1)))
      simp only [segBytes, entrySegBytes, List.length_nil, List.take_nil, List.nil_append,
        Nat.add_zero, Nat.sub_zero] at h2
      exact h2
    rw [hdropA]
    simp

/-- Witness for C3 at a concrete NodeItem with non-nil Entry and ChildR. -/
theorem claim_entry_segment_copies_childR_witness :
    ((NodeItem.mk 2 (some [1]) none (some [9, 9]) (some [5, 5, 5])).Entry = some [5, 5, 5] ∧
      ([5, 5, 5] : List Nat).length < 4294967296) ∧
    readUint32LE (nodeItemToBytes (NodeItem.mk 2 (some [1]) none (some [9, 9])
      (some [5, 5, 5]))) 13 = ([5, 5, 5] : List Nat).length ∧
    (nodeItemToBytes (NodeItem.mk 2 (some [1]) none (some [9, 9]) (some [5, 5, 5]))).drop
        (17 + (segBytes (NodeItem.mk 2 (some [1]) none (some [9, 9])
            (some [5, 5, 5])).Key).length +
          (segBytes (NodeItem.mk 2 (some [1]) none (some [9, 9])
            (some [5, 5, 5])).ChildL).length +
          (segBytes (NodeItem.mk 2 (some [1]) none (some [9, 9])
            (some [5, 5, 5])).ChildR).length) =
      (segBytes (NodeItem.mk 2 (some [1]) none (some [9, 9])
          (some [5, 5, 5])).ChildR).take ([5, 5, 5] : List Nat).length ++
        List.replicate (([5, 5, 5] : List Nat).length -
          (segBytes (NodeItem.mk 2 (some [1]) none (some [9, 9])
            (some [5, 5, 5])).ChildR).length) 0 :=
  ⟨⟨by decide, by decide⟩,
    (claim_entry_segment_copies_childR _ _ (by decide) (by decide)).1,
    (claim_entry_segment_copies_childR _ _ (by decide) (by decide)).2.1⟩

/-- Claim C4 counterexample: an 18-byte all-zero buffer declares segment
lengths summing (plus the 17-byte header) to 17, strictly less than its
length 18, yet the decoder accepts it instead of rejecting it. -/
theorem claim_exact_length_counterexample :
    readUint32LE (List.replicate 18 0) 1 + readUint32LE (List.replicate 18 0) 5 +
        readUint32LE (List.replicate 18 0) 9 + readUint32LE (List.replicate 18 0) 13 + 17 <
      (List.replicate 18 0 : List Nat).length ∧
    bytesToNodeItem (List.replicate 18 0) =
      Except.ok { type := 0, Key := some [], ChildL := some [], ChildR := some [],
                  Entry := some [] } := by
  decide

/-- Claim C4 (amended): for buffers of length at least 17, decoding succeeds
iff the declared segment lengths plus 17 are at most the buffer length — the
check is an inequality, so trailing bytes beyond the declared segments are
ignored rather than rejected. -/
theorem claim_decode_accepts_iff_le (b : List Nat) (hlen : 17 ≤ b.length) :
    (∃ ni, bytesToNodeItem b = Except.ok ni) ↔
      readUint32LE b 1 + readUint32LE b 5 + readUint32LE b 9 + readUint32LE b 13 + 17 ≤
        b.length := by
  unfold bytesToNodeItem
  rw [if_neg (by omega)]
  constructor
  · intro h
    obtain ⟨ni, hni⟩ := h
    by_contra hgt
    rw [if_pos (by omega)] at hni
    cases hni
  · intro hle
    rw [if_neg (by omega)]
    exact ⟨_, rfl⟩

/-- Witness for the amended C4 at a concrete buffer. -/
theorem claim_decode_accepts_iff_le_witness :
    17 ≤ (List.replicate 17 0 : List Nat).length ∧
    ((∃ ni, bytesToNodeItem (List.replicate 17 0) = Except.ok ni) ↔
      readUint32LE (List.replicate 17 0) 1 + readUint32LE (List.replicate 17 0) 5 +
          readUint32LE (List.replicate 17 0) 9 + readUint32LE (List.replicate 17 0) 13 + 17 ≤
        (List.replicate 17 0 : List Nat).length) :=
  ⟨by decide, claim_decode_accepts_iff_le _ (by decide)⟩

/-- Claim C8: decoding a buffer shorter than 17 bytes fails with the
corrupt-header error; a buffer of length at least 17 whose declared segment
lengths plus 17 exceed its length fails with the overflow error; when
neither condition holds, decoding succeeds (so neither error is returned). -/
theorem claim_decode_error_taxonomy (b : List Nat) :
    (b.length < 17 →
      bytesToNodeItem b =
        Except.error (GoError.errStr "corrupted merkle node: invalid header")) ∧
    (17 ≤ b.length →
      b.length <
        readUint32LE b 1 + readUint32LE b 5 + readUint32LE b 9 + readUint32LE b 13 + 17 →
      bytesToNodeItem b = Except.error (GoError.errStr "corrupted merkle node: overflow")) ∧
    (17 ≤ b.length →
      readUint32LE b 1 + readUint32LE b 5 + readUint32LE b 9 + readUint32LE b 13 + 17 ≤
        b.length →
      ∃ ni, bytesToNodeItem b = Except.ok ni) := by
  unfold bytesToNodeItem
  refine ⟨fun h => ?_, fun h1 h2 => ?_, fun h1 h2 => ?_⟩
  · rw [if_pos h]
  · rw [if_neg (by omega), if_pos (by omega)]
  · rw [if_neg (by omega), if_neg (by omega)]
    exact ⟨_, rfl⟩

/-- Witness for C8 at three concrete buffers, one per case. -/
theorem claim_decode_error_taxonomy_witness :
    ((List.replicate 16 0 : List Nat).length < 17 ∧
      bytesToNodeItem (List.replicate 16 0) =
        Except.error (GoError.errStr "corrupted merkle node: invalid header")) ∧
    (17 ≤ (0 :: 1 :: List.replicate 15 0 : List Nat).length ∧
      (0 :: 1 :: List.replicate 15 0 : List Nat).length <
        readUint32LE (0 :: 1 :: List.replicate 15 0) 1 +
          readUint32LE (0 :: 1 :: List.replicate 15 0) 5 +
          readUint32LE (0 :: 1 :: List.replicate 15 0) 9 +
          readUint32LE (0 :: 1 :: List.replicate 15 0) 13 + 17 ∧
      bytesToNodeItem (0 :: 1 :: List.replicate 15 0) =
        Except.error (GoError.errStr "corrupted merkle node: overflow")) ∧
    (17 ≤ (List.replicate 20 0 : List Nat).length ∧
      readUint32LE (List.replicate 20 0) 1 + readUint32LE (List.replicate 20 0) 5 +
          readUint32LE (List.replicate 20 0) 9 + readUint32LE (List.replicate 20 0) 13 + 17 ≤
        (List.replicate 20 0 : List Nat).length ∧
      ∃ ni, bytesToNodeItem (List.replicate 20 0) = Except.ok ni) :=
  ⟨⟨by decide, (claim_decode_error_taxonomy _).1 (by decide)⟩,
    ⟨by decide, by decide, (claim_decode_error_taxonomy _).2.1 (by decide) (by decide)⟩,
    ⟨by decide, by decide, (claim_decode_error_taxonomy _).2.2 (by decide) (by decide)⟩⟩

/-- Claim C9: segment-level decoding never produces the bad-entry-size error;
node reconstruction from an item with a non-empty entry segment fails with
that error exactly when the segment is not `2 * ElemBytesLen` bytes long;
an empty entry segment reconstructs without error and without an entry. -/
theorem claim_bad_entry_size (item : NodeItem) (es : List Nat) (hE : item.Entry = some es) :
    (∀ b : List Nat, bytesToNodeItem b ≠ Except.error GoError.errNodeBytesBadSize) ∧
    (es.length ≠ 0 →
      (item.Node = Except.error GoError.errNodeBytesBadSize ↔
        es.length ≠ 2 * ElemBytesLen)) ∧
    (es.length = 0 →
      item.Node = Except.ok { type := item.type, ChildL := childHash item.ChildL,
                              ChildR := childHash item.ChildR, Entry := (none, none) }) := by
  obtain ⟨t, k, cl, cr, en⟩ := item
  replace hE : en = some es := hE
  subst hE
  refine ⟨?_, ?_, ?_⟩
  · intro b
    unfold bytesToNodeItem
    split_ifs <;> simp
  · intro hne
    simp only [NodeItem.Node]
    split_ifs with h1 h2 <;> simp_all
  · intro hz
    simp only [NodeItem.Node]
    rw [if_neg (by omega)]

/-- Witness for C9 at a concrete item with a 65-byte entry segment. -/
theorem claim_bad_entry_size_witness :
    ((NodeItem.mk 3 none none none (some (List.replicate 65 1))).Entry =
        some (List.replicate 65 1) ∧
      (List.replicate 65 1 : List Nat).length ≠ 0) ∧
    ((NodeItem.mk 3 none none none (some (List.replicate 65 1))).Node =
        Except.error GoError.errNodeBytesBadSize ↔
      (List.replicate 65 1 : List Nat).length ≠ 2 * ElemBytesLen) :=
  ⟨⟨by decide, by decide⟩, (claim_bad_entry_size _ _ (by decide)).2.1 (by decide)⟩

/-- Claim C7 counterexample: with a failing store write, Put hands back the
client's error itself; the error returned is not a `newErr` context wrapper. -/
theorem claim_put_error_wrapped_counterexample :
    (Storage.Put (NewMerkleRedisStorage (strBytes "p1")) ⟨[]⟩ [1] { type := 0 }
        (some (GoError.errStr "boom"))).2 = some (GoError.errStr "boom") ∧
    ((Storage.Put (NewMerkleRedisStorage (strBytes "p1")) ⟨[]⟩ [1] { type := 0 }
        (some (GoError.errStr "boom"))).2).map GoError.isWrapped = some false := by
  decide

/-- Claim C7 (amended): when the underlying store write fails during Put, the
store's error is returned raw, with no contextual wrapping. -/
theorem claim_put_returns_raw_error (s : Storage) (db : Redis) (key : List Nat)
    (node : MTNode) (e : GoError) :
    (s.Put db key node (some e)).2 = some e := by
  simp [Storage.Put, redisSet]

/-- Claim C6: when the store write fails, SetRoot returns the store's error
wrapped by `newErr` with a context message, and the in-process cached root
has already been set to the new hash — the cache is left ahead of the
durable store, not unchanged. -/
theorem claim_setRoot_failure_cache_updated (s : Storage) (db : Redis) (h1 : List Nat)
    (e : GoError) (hlen : h1.length = 32) :
    ((s.SetRoot db h1 (some e)).1).currentRoot = some h1 ∧
    (s.SetRoot db h1 (some e)).2.2 = some (newErr e "failed to update current root hash") ∧
    GoError.isWrapped (newErr e "failed to update current root hash") = true := by
  refine ⟨?_, ?_, rfl⟩
  · simp [Storage.SetRoot, redisSet, hashOfBytes_of_length_eq h1 hlen]
  · simp [Storage.SetRoot, redisSet]

/-- Witness for C6 at a concrete handle, hash and store error. -/
theorem claim_setRoot_failure_cache_updated_witness :
    (List.replicate 32 5 : List Nat).length = 32 ∧
    ((Storage.mk [1] [2] none).SetRoot ⟨[]⟩ (List.replicate 32 5)
        (some (GoError.errStr "io down"))).1.currentRoot = some (List.replicate 32 5) ∧
    ((Storage.mk [1] [2] none).SetRoot ⟨[]⟩ (List.replicate 32 5)
        (some (GoError.errStr "io down"))).2.2 =
      some (newErr (GoError.errStr "io down") "failed to update current root hash") :=
  ⟨by decide,
    (claim_setRoot_failure_cache_updated (Storage.mk [1] [2] none) ⟨[]⟩ _ _ (by decide)).1,
    (claim_setRoot_failure_cache_updated (Storage.mk [1] [2] none) ⟨[]⟩ _ _ (by decide)).2.1⟩

/-- Claim C5: a successful SetRoot h1 followed by GetRoot on the same handle
returns h1 — from the cache, for any store contents and any client outcome,
so with no store read; a handle over the same prefix-derived fields with an
empty cache (as a freshly constructed handle has) also returns h1 by reading
the durable store. -/
theorem claim_setRoot_getRoot_roundtrip (s : Storage) (db : Redis) (h1 : List Nat)
    (hlen : h1.length = 32) (hbytes : ∀ x ∈ h1, x < 256) :
    (s.SetRoot db h1 none).2.2 = none ∧
    (∀ (db' : Redis) (ioErr : Option GoError),
      (((s.SetRoot db h1 none).1).GetRoot db' ioErr).2 = Except.ok h1) ∧
    (({ s with currentRoot := none } : Storage).GetRoot ((s.SetRoot db h1 none).2.1)
        none).2 = Except.ok h1 ∧
    (∀ pref : List Nat, (NewMerkleRedisStorage pref).currentRoot = none) := by
  have hh := hashOfBytes_of_length_eq h1 hlen
  refine ⟨?_, ?_, ?_, fun pref => rfl⟩
  · simp [Storage.SetRoot, redisSet]
  · intro db' ioErr
    simp [Storage.SetRoot, redisSet, Storage.GetRoot, hh]
  · simp [Storage.SetRoot, redisSet, Storage.GetRoot, redisGet, storeLookup_head,
      hexDecode_hexEncode h1 hbytes, hh]

/-- Witness for C5 at a concrete handle (with a stale cache), store and hash:
the cache-hit read is checked against an empty store and a failing client,
the fresh-handle read against the store SetRoot wrote. -/
theorem claim_setRoot_getRoot_roundtrip_witness :
    ((List.replicate 32 7 : List Nat).length = 32 ∧
      ∀ x ∈ (List.replicate 32 7 : List Nat), x < 256) ∧
    ((Storage.mk [1] [2] (some [9])).SetRoot ⟨[]⟩ (List.replicate 32 7) none).2.2 = none ∧
    ((((Storage.mk [1] [2] (some [9])).SetRoot ⟨[]⟩ (List.replicate 32 7) none).1).GetRoot
        ⟨[]⟩ (some (GoError.errStr "offline"))).2 = Except.ok (List.replicate 32 7) ∧
    (({ Storage.mk [1] [2] (some [9]) with currentRoot := none } : Storage).GetRoot
        (((Storage.mk [1] [2] (some [9])).SetRoot ⟨[]⟩ (List.replicate 32 7) none).2.1)
        none).2 = Except.ok (List.replicate 32 7) :=
  ⟨⟨by decide, by decide⟩,
    (claim_setRoot_getRoot_roundtrip (Storage.mk [1] [2] (some [9])) ⟨[]⟩ _ (by decide)
      (by decide)).1,
    (claim_setRoot_getRoot_roundtrip (Storage.mk [1] [2] (some [9])) ⟨[]⟩ _ (by decide)
      (by decide)).2.1 ⟨[]⟩ (some (GoError.errStr "offline")),
    (claim_setRoot_getRoot_roundtrip (Storage.mk [1] [2] (some [9])) ⟨[]⟩ _ (by decide)
      (by decide)).2.2.1⟩

/-- Claim C1 (code bug): Put builds its NodeItem as `NodeItem{Key: key}` and
never assigns the node's type, so the stored type byte is always 0; reading
the key back returns a node of type 0 (Middle) even though a Leaf (type 1)
was stored — the claim's own scenario (prefix "p1", a leaf with an entry
pair written at key [1]) fails.  The returned node's children and entries
are zero hashes as well (the children because a leaf has none, the entries
because of the §9 entry-segment defect). -/
theorem put_get_drops_leaf_type :
    NodeTypeLeaf = 1 ∧ NodeTypeMiddle = 0 ∧
    Storage.Get (NewMerkleRedisStorage (strBytes "p1"))
        (Storage.Put (NewMerkleRedisStorage (strBytes "p1")) ⟨[]⟩ [1]
          { type := NodeTypeLeaf, ChildL := none, ChildR := none,
            Entry := (some (List.replicate 32 9), some (List.replicate 32 8)) } none).1
        [1] none =
      Except.ok { type := NodeTypeMiddle, ChildL := some (List.replicate 32 0),
                  ChildR := some (List.replicate 32 0),
                  Entry := (some (List.replicate 32 0), some (List.replicate 32 0)) } := by
  refine ⟨rfl, rfl, ?_⟩
  decide

/-- Node reconstruction turns non-nil item children into non-nil hash
pointers, copying the bytes into fresh zero hashes. -/
lemma node_children_some (item : NodeItem) (l r : List Nat) (nd : MTNode)
    (hL : item.ChildL = some l) (hR : item.ChildR = some r)
    (hnd : item.Node = Except.ok nd) :
    nd.ChildL = some (hashOfBytes l) ∧ nd.ChildR = some (hashOfBytes r) := by
  obtain ⟨t, k, cl, cr, en⟩ := item
  replace hL : cl = some l := hL
  replace hR : cr = some r := hR
  subst hL
  subst hR
  cases en with
  | none =>
    simp only [NodeItem.Node] at hnd
    injection hnd with h
    subst h
    exact ⟨rfl, rfl⟩
  | some es =>
    simp only [NodeItem.Node] at hnd
    split_ifs at hnd with h1 h2
    all_goals
      first
      | exact Except.noConfusion hnd
      | (injection hnd with h
         subst h
         exact ⟨rfl, rfl⟩)

/-- Claim C10: every buffer the decoder accepts yields an item whose ChildL
and ChildR are non-nil even when their declared lengths are zero; node
reconstruction from such an item always produces non-nil child hash
pointers; and a node stored via Put with an absent left child is returned by
Get with ChildL equal to the all-zero hash rather than absent. -/
theorem claim_children_never_nil :
    (∀ (b : List Nat) (ni : NodeItem), bytesToNodeItem b = Except.ok ni →
      (∃ l, ni.ChildL = some l) ∧ (∃ r, ni.ChildR = some r) ∧
      ∀ nd : MTNode, ni.Node = Except.ok nd →
        (∃ hl, nd.ChildL = some hl) ∧ ∃ hr, nd.ChildR = some hr) ∧
    (∀ (s : Storage) (db : Redis) (key : List Nat) (node : MTNode),
      (∀ x ∈ key, x < 256) → key.length < 4294967296 →
      node.ChildL = none → node.Entry = (none, none) →
      (segBytes node.ChildR).length < 4294967296 →
      (∀ x ∈ segBytes node.ChildR, x < 256) →
      ∃ nd : MTNode, s.Get ((s.Put db key node none).1) key none = Except.ok nd ∧
        nd.ChildL = some (List.replicate 32 0)) := by
  constructor
  · intro b ni h
    unfold bytesToNodeItem at h
    by_cases h1 : b.length < 17
    · rw [if_pos h1] at h
      exact Except.noConfusion h
    rw [if_neg h1] at h
    by_cases h2 : readUint32LE b 1 + readUint32LE b 5 + readUint32LE b 9 +
        readUint32LE b 13 + 17 > b.length
    · rw [if_pos h2] at h
      exact Except.noConfusion h
    rw [if_neg h2] at h
    injection h with h
    subst h
    refine ⟨⟨_, rfl⟩, ⟨_, rfl⟩, ?_⟩
    intro nd hnd
    have hc := node_children_some _ _ _ nd rfl rfl hnd
    exact ⟨⟨_, hc.1⟩, ⟨_, hc.2⟩⟩
  · intro s db key node hkb hkl hCL hEntry hRlen hRb
    have hitem : putNodeItem key node = NodeItem.mk 0 (some key) none node.ChildR none := by
      simp [putNodeItem, hCL, hEntry]
    have hbytes : ∀ x ∈ nodeItemToBytes (NodeItem.mk 0 (some key) none node.ChildR none),
        x < 256 := by
      apply nodeItemToBytes_bytes_lt
      · simpa [segBytes] using hkb
      · simp [segBytes]
      · exact hRb
    have hdec := decode_encode (NodeItem.mk 0 (some key) none node.ChildR none)
      (by simpa [segBytes] using hkl) (by simp [segBytes]) hRlen (by simp [segBytes])
    have hput1 : (s.Put db key node none).1 =
        Redis.mk ((s.getRedisNodeIdForMerkleKey key,
          hexEncode (nodeItemToBytes (NodeItem.mk 0 (some key) none node.ChildR none))) ::
          db.data) := by
      simp [Storage.Put, redisSet, hitem]
    refine ⟨{ type := 0, ChildL := some (List.replicate 32 0),
              ChildR := childHash (some (segBytes node.ChildR)), Entry := (none, none) },
      ?_, rfl⟩
    rw [hput1]
    simp only [Storage.Get, redisGet, storeLookup_head]
    simp [hexDecode_hexEncode _ hbytes, hdec, NodeItem.Node, entrySegBytes, segBytes,
      childHash, hashOfBytes_nil]

/-- Witness for C10: a 17-byte all-zero buffer decodes to an item with
non-nil empty children, and a concrete middle node with no left child,
stored and re-read, comes back with the all-zero hash as its left child. -/
theorem claim_children_never_nil_witness :
    (bytesToNodeItem (List.replicate 17 0) =
      Except.ok (NodeItem.mk 0 (some []) (some []) (some []) (some []))) ∧
    ((∃ l, (NodeItem.mk 0 (some []) (some []) (some []) (some [])).ChildL = some l) ∧
      (∃ r, (NodeItem.mk 0 (some []) (some []) (some []) (some [])).ChildR = some r) ∧
      ∀ nd : MTNode, (NodeItem.mk 0 (some []) (some []) (some []) (some [])).Node =
          Except.ok nd →
        (∃ hl, nd.ChildL = some hl) ∧ ∃ hr, nd.ChildR = some hr) ∧
    ∃ nd : MTNode,
      Storage.Get (Storage.mk [1] [2] none)
          ((Storage.Put (Storage.mk [1] [2] none) ⟨[]⟩ [4]
            { type := 0, ChildL := none, ChildR := some (List.replicate 32 6),
              Entry := (none, none) } none).1) [4] none = Except.ok nd ∧
        nd.ChildL = some (List.replicate 32 0) :=
  ⟨by decide,
    claim_children_never_nil.1 (List.replicate 17 0) _ (by decide),
    claim_children_never_nil.2 (Storage.mk [1] [2] none) ⟨[]⟩ [4] _ (by decide) (by decide)
      (by decide) (by decide) (by decide) (by decide)⟩

end MerkleRedis
